import Mathlib

/-!
Verification of the event scoring / deduplication / ranking pipeline of the
ai-chatbot repository (src/app/api/events/filter/route.ts,
src/app/api/events/query/route.ts, and the basic-scrape route).

JavaScript numbers are modelled as `JsNum`: either an exact rational or `NaN`
(`JsNum.nan`).  The only place `NaN` can arise in the modelled code is the
unguarded division `matchingWords.length / queryWords.length` when the query
has no token of length > 2 (JS `0 / 0` is `NaN`); `NaN` then propagates
through `+`, `*` and `Math.min` exactly as in JS.  Float rounding is not
modelled (exact rationals instead); none of the verified properties depends
on rounding.  JS string truthiness (`undefined` and `""` are falsy) is
modelled by `isTruthy` on `Option String`.
-/

/-- JavaScript number: an exact rational, or NaN. -/
inductive JsNum where
  | nan : JsNum
  | num : ℚ → JsNum
deriving DecidableEq

/-- JS addition; NaN propagates. -/
def JsNum.add : JsNum → JsNum → JsNum
  | num a, num b => num (a + b)
  | _, _ => nan

/-- JS multiplication; NaN propagates (`NaN * 0` is `NaN` in JS). -/
def JsNum.mul : JsNum → JsNum → JsNum
  | num a, num b => num (a * b)
  | _, _ => nan

/-- JS `Math.min`; returns NaN when either argument is NaN. -/
def JsNum.min : JsNum → JsNum → JsNum
  | num a, num b => num (if a ≤ b then a else b)
  | _, _ => nan

/-- JS `x > q` comparison with a rational constant; `NaN > q` is `false`. -/
def JsNum.gtNum : JsNum → ℚ → Bool
  | nan, _ => false
  | num a, q => decide (q < a)

/-- JS division of the two (natural-number) array lengths.  JS `0 / 0` is
`NaN`.  (JS `a / 0` for `a > 0` is `Infinity`, but at the one call site of
this function `matchingWords` is a filtering of `queryWords`, so a zero
denominator forces a zero numerator; `Infinity` is unreachable and not
modelled.) -/
def jsDiv (a b : Nat) : JsNum :=
  if b = 0 then JsNum.nan else JsNum.num ((a : ℚ) / (b : ℚ))

/-- One `if (cond) score += k;` statement of the source, on JS numbers.
Where the source guards a compound statement (e.g. the location block), the
condition is the conjunction of the outer guard and the inner test, which is
equivalent because the inner test is a pure total computation. -/
def JsNum.condAdd (score : JsNum) (c : Bool) (k : ℚ) : JsNum :=
  if c then score.add (JsNum.num k) else score

/-- One `if (cond) score += k;` statement of the source, for the scores that
can never be NaN (plain rational accumulation). -/
def qCondAdd (score : ℚ) (c : Bool) (k : ℚ) : ℚ :=
  if c then score + k else score

/-- JS `Math.min` on two never-NaN numbers. -/
def jsMinQ (a b : ℚ) : ℚ := if a ≤ b then a else b

/-- JS string truthiness of a possibly-`undefined` string field:
`undefined` and `""` are falsy. -/
def isTruthy : Option String → Bool
  | none => false
  | some s => !s.isEmpty

/-- JS `String.prototype.toLowerCase` (per-character lowering; the modelled
strings are ASCII). -/
def jsToLower (s : String) : String := String.mk (s.data.map Char.toLower)

/-- Char-list prefix test (auxiliary for substring containment). -/
def charsLead : List Char → List Char → Bool
  | [], _ => true
  | _ :: _, [] => false
  | a :: as, b :: bs => a == b && charsLead as bs

/-- Char-list substring test (auxiliary for `strContains`). -/
def charsContain : List Char → List Char → Bool
  | [], needle => needle.isEmpty
  | c :: rest, needle => charsLead needle (c :: rest) || charsContain rest needle

/-- JS `haystack.includes(needle)` substring containment. -/
def strContains (haystack needle : String) : Bool :=
  charsContain haystack.data needle.data

/-- JS whitespace test for the `\s` regex class (the characters relevant to
the modelled ASCII queries). -/
def isWsChar (c : Char) : Bool := c = ' ' || c = '\t' || c = '\n' || c = '\r'

/-- Worker for `splitRegexWs`: `sawWs` records whether the previous character
was part of a whitespace run (so the `+` of the regex consumes the whole
run), `cur` is the current token (reversed). -/
def splitWsGo : Bool → List Char → List Char → List (List Char)
  | _, cur, [] => [cur.reverse]
  | sawWs, cur, c :: cs =>
    if isWsChar c then
      if sawWs then splitWsGo true [] cs
      else cur.reverse :: splitWsGo true [] cs
    else splitWsGo false (c :: cur) cs

/-- JS `s.split(/\s+/)`: split on maximal whitespace runs, keeping the empty
leading/trailing tokens JS produces (e.g. `" a".split(/\s+/)` is
`["", "a"]`). -/
def splitRegexWs (s : String) : List String :=
  (splitWsGo false [] s.data).map String.mk

/-- Strip every character that is not a lower-case letter: JS
`.replace(/[^a-z]/g, '')`. -/
def keepAlpha (s : String) : String :=
  String.mk (s.data.filter (fun c => decide ('a' ≤ c) && decide (c ≤ 'z')))

/-- RawCandidate: an unscored event record, with exactly the fields the
modelled code reads.  Absent (`undefined`) fields are `none`. -/
structure Event where
  id : Option String
  title : Option String
  description : Option String
  location : Option String
  dateTime : Option String
  platform : Option String
  imageUrl : Option String
  eventType : Option String
deriving DecidableEq

/-- ScoredEvent: the object pushed by the scoring stages.  The JS object
spread `{ ...event, relevanceScore, ... }` keeps the raw fields (held in
`base`) and adds/overrides the computed ones. -/
structure ScoredEvent where
  base : Event
  relevanceScore : JsNum
  isStudentFriendly : Bool
  studentFriendlinessScore : ℚ
  eventType : String
  keywords : List String
deriving DecidableEq

/-- ScrapingResult: per-platform envelope, with the fields the pipeline
reads. -/
structure ScrapingResult where
  platform : String
  success : Bool
  events : List Event
  error : Option String
deriving DecidableEq

/-- Text normalization used by every scoring function:
`` `${event.title || ''} ${event.description || ''}`.toLowerCase() ``. -/
def normalizeText (event : Event) : String :=
  jsToLower ((event.title.getD "") ++ " " ++ (event.description.getD ""))

/-- calculateStudentFriendlinessScore (identical in
src/app/api/events/filter/route.ts lines 165-191 and
src/app/api/events/query/route.ts lines 226-252). -/
def calculateStudentFriendlinessScore (event : Event) : ℚ :=
  let text := normalizeText event
  let score : ℚ := 0
  let score := qCondAdd score (strContains text "student") 0.3
  let score := qCondAdd score (strContains text "study abroad") 0.3
  let score := qCondAdd score (strContains text "international") 0.2
  let score := qCondAdd score (strContains text "university" || strContains text "college") 0.2
  let score := qCondAdd score (strContains text "campus") 0.2
  let score := qCondAdd score (strContains text "18+" || strContains text "21+") 0.1
  let score := qCondAdd score (strContains text "all ages" || strContains text "family") 0.1
  let score := qCondAdd score (strContains text "free" || strContains text "no cost") 0.2
  let score := qCondAdd score (strContains text "cheap" || strContains text "affordable") 0.1
  let score := qCondAdd score (strContains text "budget") 0.1
  let score := qCondAdd score (strContains text "meet" || strContains text "social") 0.1
  let score := qCondAdd score (strContains text "networking") 0.1
  let score := qCondAdd score (strContains text "party" || strContains text "celebration") 0.1
  jsMinQ score 1

/-- categorizeEventByKeywords (identical in
src/app/api/events/filter/route.ts lines 196-271 and
src/app/api/events/query/route.ts lines 257-332): ordered keyword rules,
first match wins, default `"general"`. -/
def categorizeEventByKeywords (event : Event) : String :=
  let text := normalizeText event
  if strContains text "party" || strContains text "meetup" || strContains text "social" then
    "social"
  else if strContains text "workshop" || strContains text "seminar" || strContains text "lecture" then
    "academic"
  else if strContains text "museum" || strContains text "art" || strContains text "culture" then
    "cultural"
  else if strContains text "sport" || strContains text "fitness" || strContains text "outdoor" then
    "sports"
  else if strContains text "bar" || strContains text "club" || strContains text "nightlife" then
    "nightlife"
  else if strContains text "food" || strContains text "restaurant" || strContains text "dining" then
    "food"
  else if strContains text "concert" || strContains text "show" || strContains text "performance" then
    "entertainment"
  else if strContains text "hiking" || strContains text "park" || strContains text "nature" then
    "outdoor"
  else if strContains text "skill" || strContains text "diy" || strContains text "hands-on" then
    "workshop"
  else if strContains text "networking" || strContains text "professional" || strContains text "business" then
    "networking"
  else
    "general"

/-- The ordered rule table of the categorizer, as written in the spec
(§4.3): category name paired with its keyword group. -/
def categoryRules : List (String × List String) :=
  [("social", ["party", "meetup", "social"]),
   ("academic", ["workshop", "seminar", "lecture"]),
   ("cultural", ["museum", "art", "culture"]),
   ("sports", ["sport", "fitness", "outdoor"]),
   ("nightlife", ["bar", "club", "nightlife"]),
   ("food", ["food", "restaurant", "dining"]),
   ("entertainment", ["concert", "show", "performance"]),
   ("outdoor", ["hiking", "park", "nature"]),
   ("workshop", ["skill", "diy", "hands-on"]),
   ("networking", ["networking", "professional", "business"])]

/-- First-match evaluation of an ordered rule table (auxiliary for
`specCategorize`). -/
def firstMatchingCategory (text : String) : List (String × List String) → String
  | [] => "general"
  | rule :: rest =>
    if rule.2.any (fun keyword => strContains text keyword) then rule.1
    else firstMatchingCategory text rest

/-- Modelled from the spec's words (§4.3): evaluate a fixed ordered list of
keyword-group predicates, return the first matching category, `"general"`
when none matches.  Compared against the source translation
`categorizeEventByKeywords` for the refinement half of C4. -/
def specCategorize (event : Event) : String :=
  firstMatchingCategory (normalizeText event) categoryRules

/-- Streaming first-occurrence deduplication by a key function: the JS
pattern `const seen = new Set(); list.filter(x => seen does not have key(x),
else add key(x))`, and also `[...new Set(list)]` (with `key = id`).
`seen` is the set of keys already emitted. -/
def dedupByKey {α β : Type} [DecidableEq β] (key : α → β) : List β → List α → List α
  | _, [] => []
  | seen, x :: xs =>
    if key x ∈ seen then dedupByKey key seen xs
    else x :: dedupByKey key (key x :: seen) xs

/-- extractKeywordsFromEvent (identical in both route files): conditional
pushes into `keywords`, then `[...new Set(keywords)]` (first-occurrence
deduplication, modelled by `dedupByKey id`). -/
def extractKeywordsFromEvent (event : Event) : List String :=
  let text := normalizeText event
  let keywords : List String := []
  let keywords := if strContains text "party" then keywords ++ ["party"] else keywords
  let keywords := if strContains text "concert" then keywords ++ ["concert"] else keywords
  let keywords := if strContains text "workshop" then keywords ++ ["workshop"] else keywords
  let keywords := if strContains text "meetup" then keywords ++ ["meetup"] else keywords
  let keywords := if strContains text "bar" then keywords ++ ["bar"] else keywords
  let keywords := if strContains text "club" then keywords ++ ["club"] else keywords
  let keywords := if strContains text "restaurant" then keywords ++ ["restaurant"] else keywords
  let keywords := if strContains text "dance" then keywords ++ ["dancing"] else keywords
  let keywords := if strContains text "drink" then keywords ++ ["drinking"] else keywords
  let keywords := if strContains text "eat" then keywords ++ ["food"] else keywords
  let keywords := if strContains text "sightsee" then keywords ++ ["sightseeing"] else keywords
  let keywords := if strContains text "tour" then keywords ++ ["tour"] else keywords
  let keywords := if strContains text "tonight" then keywords ++ ["tonight"] else keywords
  let keywords := if strContains text "weekend" then keywords ++ ["weekend"] else keywords
  let keywords := if strContains text "this week" then keywords ++ ["this week"] else keywords
  let keywords := if strContains text "student" then keywords ++ ["student"] else keywords
  let keywords := if strContains text "study abroad" then keywords ++ ["study abroad"] else keywords
  let keywords := if strContains text "international" then keywords ++ ["international"] else keywords
  dedupByKey id [] keywords

/-- Dedup fingerprint of src/app/api/events/query/route.ts lines 133-136:
`` `${title-lowered-stripped || ''}_${location-lowered-stripped || ''}` ``
(optional chaining: an absent field yields `undefined`, and
`undefined || ''` is `''`). -/
def dedupKey (event : Event) : String :=
  let title := match event.title with
    | none => ""
    | some s => keepAlpha (jsToLower s)
  let location := match event.location with
    | none => ""
    | some s => keepAlpha (jsToLower s)
  title ++ "_" ++ location

/-- removeDuplicateEvents (src/app/api/events/query/route.ts lines 130-145):
keep an event iff its fingerprint has not been seen, first occurrence
wins. -/
def removeDuplicateEvents (events : List Event) : List Event :=
  dedupByKey dedupKey [] events

/-- Dedup fingerprint of the basic-scrape route (src/unnamed/part_000 lines
209-222): the title is lowered and stripped of non-letters but the location
is only lowered, and an absent field is interpolated by the template literal
as the string `"undefined"` (no `|| ''` fallback in that file). -/
def scrapeDedupKey (event : Event) : String :=
  let title := match event.title with
    | none => "undefined"
    | some s => keepAlpha (jsToLower s)
  let location := match event.location with
    | none => "undefined"
    | some s => jsToLower s
  title ++ "_" ++ location

/-- removeDuplicateEvents of the basic-scrape route (src/unnamed/part_000
lines 209-222). -/
def removeDuplicateEventsScrape (events : List Event) : List Event :=
  dedupByKey scrapeDedupKey [] events

/-- Stable insertion of one element into a comparator-sorted list
(auxiliary for `jsSortBy`). -/
def insertSorted {α : Type} (le : α → α → Bool) (x : α) : List α → List α
  | [] => [x]
  | y :: ys => if le x y then x :: y :: ys else y :: insertSorted le x ys

/-- JS `Array.prototype.sort(comparator)`: a stable sort with respect to the
boolean relation `le a b` meaning "the comparator puts `a` at or before
`b`".  (ES2019+ requires sort stability; insertion sort is stable.) -/
def jsSortBy {α : Type} (le : α → α → Bool) : List α → List α
  | [] => []
  | x :: xs => insertSorted le x (jsSortBy le xs)

namespace FilterRoute

/-- calculateRelevanceScore (src/app/api/events/filter/route.ts lines
125-160).  `location` and `eventType` are the route's optional request
fields (`undefined` is `none`).  The token-overlap term divides by
`queryWords.length` unguarded, exactly as the source does. -/
def calculateRelevanceScore (event : Event) (originalQuery : String)
    (location : Option String) (eventType : Option String) : JsNum :=
  let query := jsToLower originalQuery
  let eventText := normalizeText event
  let queryWords := (splitRegexWs query).filter (fun word => decide (word.length > 2))
  let matchingWords := queryWords.filter (fun word => strContains eventText word)
  let score := JsNum.add (JsNum.num 0)
    (JsNum.mul (jsDiv matchingWords.length queryWords.length) (JsNum.num 0.4))
  let score := JsNum.condAdd score
    (isTruthy location && isTruthy event.location &&
      strContains (jsToLower (event.location.getD "")) (jsToLower (location.getD ""))) 0.3
  let score := JsNum.condAdd score
    (isTruthy eventType && isTruthy event.eventType && event.eventType == eventType) 0.2
  let score := JsNum.condAdd score
    (isTruthy event.description && decide ((event.description.getD "").length > 50)) 0.1
  let score := JsNum.condAdd score (isTruthy event.imageUrl) 0.05
  let score := JsNum.condAdd score (isTruthy event.dateTime) 0.05
  JsNum.min score (JsNum.num 1)

/-- The body of the per-candidate `try` block of filterAndRankEvents
(src/app/api/events/filter/route.ts lines 92-111): compute both scores and,
when `relevanceScore > 0.3`, produce the pushed object; `none` when the
candidate is dropped by the threshold.  Wrapped in `Except` because the
source runs this inside `try { ... } catch { continue }`; the typed
translation itself never throws, so it always returns `Except.ok`. -/
def scoreCandidate (originalQuery : String) (location eventType : Option String)
    (event : Event) : Except String (Option ScoredEvent) :=
  let relevanceScore := calculateRelevanceScore event originalQuery location eventType
  let studentFriendlinessScore := calculateStudentFriendlinessScore event
  Except.ok (if JsNum.gtNum relevanceScore 0.3 then
    some (ScoredEvent.mk event relevanceScore
      (decide ((0.6 : ℚ) < studentFriendlinessScore)) studentFriendlinessScore
      (if isTruthy eventType then eventType.getD "" else categorizeEventByKeywords event)
      (extractKeywordsFromEvent event))
  else none)

/-- The `for ... of` loop of filterAndRankEvents with its per-candidate
`try`/`catch`: an `Except.error` (a thrown scoring exception) skips that
candidate and continues with the rest; `Except.ok none` is a candidate
dropped by the relevance threshold; `Except.ok (some se)` is pushed. -/
def processCandidates (step : Event → Except String (Option ScoredEvent)) :
    List Event → List ScoredEvent
  | [] => []
  | e :: rest =>
    match step e with
    | Except.error _ => processCandidates step rest
    | Except.ok none => processCandidates step rest
    | Except.ok (some se) => se :: processCandidates step rest

/-- Comparator ordering of `.sort((a, b) => b.relevanceScore -
a.relevanceScore)` (descending relevance): `relDescLe a b` holds when the
comparator value `b.relevanceScore - a.relevanceScore` is `<= 0`, treating a
NaN comparator value as `0` (ties), as the ES SortCompare operation does. -/
def relDescLe (a b : ScoredEvent) : Bool :=
  match b.relevanceScore, a.relevanceScore with
  | JsNum.num x, JsNum.num y => decide (x ≤ y)
  | _, _ => true

/-- filterAndRankEvents (src/app/api/events/filter/route.ts lines 81-120):
loop with per-candidate try/catch and relevance threshold, then sort by
relevance descending. -/
def filterAndRankEvents (events : List Event) (originalQuery : String)
    (location eventType : Option String) : List ScoredEvent :=
  jsSortBy relDescLe
    (processCandidates (scoreCandidate originalQuery location eventType) events)

end FilterRoute

namespace QueryRoute

/-- calculateRelevanceScore (src/app/api/events/query/route.ts lines
186-221).  Unlike the filter route's version, `location` is a required
string and the location block is guarded only by `event.location`. -/
def calculateRelevanceScore (event : Event) (query : String)
    (location : String) (eventType : Option String) : JsNum :=
  let queryLower := jsToLower query
  let eventText := normalizeText event
  let queryWords := (splitRegexWs queryLower).filter (fun word => decide (word.length > 2))
  let matchingWords := queryWords.filter (fun word => strContains eventText word)
  let score := JsNum.add (JsNum.num 0)
    (JsNum.mul (jsDiv matchingWords.length queryWords.length) (JsNum.num 0.4))
  let score := JsNum.condAdd score
    (isTruthy event.location &&
      strContains (jsToLower (event.location.getD "")) (jsToLower location)) 0.3
  let score := JsNum.condAdd score
    (isTruthy eventType && isTruthy event.eventType && event.eventType == eventType) 0.2
  let score := JsNum.condAdd score
    (isTruthy event.description && decide ((event.description.getD "").length > 50)) 0.1
  let score := JsNum.condAdd score (isTruthy event.imageUrl) 0.05
  let score := JsNum.condAdd score (isTruthy event.dateTime) 0.05
  JsNum.min score (JsNum.num 1)

/-- The per-event map body of scoreAndRankEvents
(src/app/api/events/query/route.ts lines 157-174). -/
def scoreEvent (query : String) (location : String) (eventType : Option String)
    (event : Event) : ScoredEvent :=
  let relevanceScore := calculateRelevanceScore event query location eventType
  let studentFriendlinessScore := calculateStudentFriendlinessScore event
  ScoredEvent.mk event relevanceScore
    (decide ((0.6 : ℚ) < studentFriendlinessScore)) studentFriendlinessScore
    (if isTruthy eventType then eventType.getD "" else categorizeEventByKeywords event)
    (extractKeywordsFromEvent event)

/-- Combined score `0.7 * relevance + 0.3 * studentFriendliness` used by the
query route's sort comparator (lines 175-180); NaN propagates from a NaN
relevance score. -/
def combinedScore (e : ScoredEvent) : JsNum :=
  JsNum.add (JsNum.mul e.relevanceScore (JsNum.num 0.7))
    (JsNum.num (e.studentFriendlinessScore * 0.3))

/-- Comparator ordering of `.sort((a, b) => bScore - aScore)` on the
combined score, NaN comparator values treated as ties. -/
def combinedDescLe (a b : ScoredEvent) : Bool :=
  match combinedScore b, combinedScore a with
  | JsNum.num x, JsNum.num y => decide (x ≤ y)
  | _, _ => true

/-- scoreAndRankEvents (src/app/api/events/query/route.ts lines 150-181):
map every event to its scored object (no threshold, no try/catch), then
sort by the combined score descending. -/
def scoreAndRankEvents (events : List Event) (query : String)
    (location : String) (eventType : Option String) : List ScoredEvent :=
  jsSortBy combinedDescLe (events.map (scoreEvent query location eventType))

end QueryRoute

/-- The flatten step of the query pipeline
(src/app/api/events/query/route.ts lines 70-72):
`scrapingResults.flatMap(result => result.success ? result.events : [])`. -/
def flattenSuccessfulEvents (results : List ScrapingResult) : List Event :=
  results.flatMap (fun result => if result.success then result.events else [])

/-- The flatten step as written in the filter route file's pipeline document
(src/app/api/events/filter/route.ts lines 441-443):
`scrapingResults.filter(r => r.success).flatMap(r => r.events)`. -/
def flattenSuccessfulEventsFiltered (results : List ScrapingResult) : List Event :=
  (results.filter (fun result => result.success)).flatMap (fun result => result.events)

/-- Steps 7-8 of the pipeline POST handler in the filter route file
(src/app/api/events/filter/route.ts lines 490-498): keep the events with
`studentFriendlinessScore > 0.4`; if that filter yields nothing, fall back
to the full scored list; then `slice(0, maxResults)`. -/
def applyStudentFriendlyFallback (scoredEvents : List ScoredEvent)
    (maxResults : Nat) : List ScoredEvent :=
  let studentFriendlyEvents :=
    scoredEvents.filter (fun event => decide ((0.4 : ℚ) < event.studentFriendlinessScore))
  (if studentFriendlyEvents.length > 0 then studentFriendlyEvents else scoredEvents).take
    maxResults

/-- Sample event with every field absent (used in concrete instances). -/
def bareEvent : Event :=
  Event.mk none none none none none none none none

/-- Sample event whose text is just "party" (used in concrete instances). -/
def wEvent : Event :=
  Event.mk none (some "party") none none none none none none

/-- Sample event whose text contains both "hiking" and "bar" and no keyword
of an earlier categorizer rule (used in concrete instances). -/
def hikingBarEvent : Event :=
  Event.mk none (some "hiking bar") none none none none none none

/-- Sample event whose text contains "party", "hiking" and "bar" (used in
concrete instances). -/
def hikingBarPartyEvent : Event :=
  Event.mk none (some "party hiking bar") none none none none none none

/-- Sample event located in Barcelona with a "party" title (used in
concrete instances). -/
def bcnEvent : Event :=
  Event.mk (some "1") (some "party") none (some "Barcelona") none (some "instagram") none none

/-- Sample event: same title and location as `bcnEvent` but a different
platform and id (used in concrete dedup instances). -/
def bcnEventReddit : Event :=
  Event.mk (some "2") (some "Party!") none (some "barcelona") none (some "reddit") none none

/-- A per-candidate step that always throws (used in concrete instances of
the error-handling behaviour). -/
def alwaysFailStep : Event → Except String (Option ScoredEvent) :=
  fun _ => Except.error "scoring failed"

/-- The disjunction of the keyword tests of the four categorizer rules that
precede the nightlife rule (social, academic, cultural, sports). -/
def matchesEarlierThanNightlife (event : Event) : Bool :=
  let text := normalizeText event
  strContains text "party" || strContains text "meetup" || strContains text "social" ||
  strContains text "workshop" || strContains text "seminar" || strContains text "lecture" ||
  strContains text "museum" || strContains text "art" || strContains text "culture" ||
  strContains text "sport" || strContains text "fitness" || strContains text "outdoor"

/-- Nonnegativity predicate on JS numbers; NaN is not nonnegative. -/
def JsNum.IsNonneg : JsNum → Prop
  | nan => False
  | num q => 0 ≤ q

lemma JsNum.condAdd_false (s : JsNum) (k : ℚ) : JsNum.condAdd s false k = s := rfl

lemma JsNum.isNonneg_condAdd (c : Bool) {x : JsNum} {k : ℚ} (hx : x.IsNonneg)
    (hk : 0 ≤ k) : (JsNum.condAdd x c k).IsNonneg := by
  cases x with
  | nan => exact hx.elim
  | num q =>
    unfold JsNum.condAdd
    split
    · exact add_nonneg hx hk
    · exact hx

lemma isNonneg_tokenTerm (m n : Nat) (hn : ¬ n = 0) :
    (JsNum.add (JsNum.num 0) (JsNum.mul (jsDiv m n) (JsNum.num 0.4))).IsNonneg := by
  unfold jsDiv
  rw [if_neg hn]
  show (0 : ℚ) ≤ 0 + (m : ℚ) / (n : ℚ) * 0.4
  positivity

lemma JsNum.range_of_min_one {x : JsNum} (hx : x.IsNonneg) :
    ∃ r : ℚ, JsNum.min x (JsNum.num 1) = JsNum.num r ∧ 0 ≤ r ∧ r ≤ 1 := by
  cases x with
  | nan => exact hx.elim
  | num q =>
    refine ⟨if q ≤ 1 then q else 1, rfl, ?_, ?_⟩
    · split
      · exact hx
      · norm_num
    · split
      · assumption
      · norm_num

lemma qCondAdd_nonneg (c : Bool) {s k : ℚ} (hs : 0 ≤ s) (hk : 0 ≤ k) :
    0 ≤ qCondAdd s c k := by
  unfold qCondAdd
  split
  · linarith
  · exact hs

lemma jsMinQ_one_range {s : ℚ} (hs : 0 ≤ s) : 0 ≤ jsMinQ s 1 ∧ jsMinQ s 1 ≤ 1 := by
  unfold jsMinQ
  constructor <;> split
  · exact hs
  · norm_num
  · assumption
  · norm_num

lemma studentFriendliness_range (e : Event) :
    0 ≤ calculateStudentFriendlinessScore e ∧ calculateStudentFriendlinessScore e ≤ 1 := by
  simp only [calculateStudentFriendlinessScore]
  apply jsMinQ_one_range
  repeat (apply qCondAdd_nonneg _ ?_ (by norm_num))
  norm_num

lemma relevance_range_filterRoute (e : Event) (q : String) (loc ty : Option String)
    (hn : ((splitRegexWs (jsToLower q)).filter (fun word => decide (word.length > 2))).length ≠ 0) :
    ∃ r : ℚ, FilterRoute.calculateRelevanceScore e q loc ty = JsNum.num r ∧
      0 ≤ r ∧ r ≤ 1 := by
  simp only [FilterRoute.calculateRelevanceScore]
  apply JsNum.range_of_min_one
  repeat (apply JsNum.isNonneg_condAdd _ ?_ (by norm_num))
  exact isNonneg_tokenTerm _ _ hn

lemma relevance_range_queryRoute (e : Event) (q loc : String) (ty : Option String)
    (hn : ((splitRegexWs (jsToLower q)).filter (fun word => decide (word.length > 2))).length ≠ 0) :
    ∃ r : ℚ, QueryRoute.calculateRelevanceScore e q loc ty = JsNum.num r ∧
      0 ≤ r ∧ r ≤ 1 := by
  simp only [QueryRoute.calculateRelevanceScore]
  apply JsNum.range_of_min_one
  repeat (apply JsNum.isNonneg_condAdd _ ?_ (by norm_num))
  exact isNonneg_tokenTerm _ _ hn

lemma relevance_nan_filterRoute (e : Event) (q : String) (loc ty : Option String)
    (h : (splitRegexWs (jsToLower q)).filter (fun word => decide (word.length > 2)) = []) :
    FilterRoute.calculateRelevanceScore e q loc ty = JsNum.nan := by
  simp only [FilterRoute.calculateRelevanceScore, h]
  simp [jsDiv, JsNum.mul, JsNum.add, JsNum.condAdd, JsNum.min]

lemma relevance_nan_queryRoute (e : Event) (q loc : String) (ty : Option String)
    (h : (splitRegexWs (jsToLower q)).filter (fun word => decide (word.length > 2)) = []) :
    QueryRoute.calculateRelevanceScore e q loc ty = JsNum.nan := by
  simp only [QueryRoute.calculateRelevanceScore, h]
  simp [jsDiv, JsNum.mul, JsNum.add, JsNum.condAdd, JsNum.min]

lemma mem_insertSorted {α : Type} (le : α → α → Bool) (x a : α) (l : List α) :
    a ∈ insertSorted le x l ↔ a = x ∨ a ∈ l := by
  induction l with
  | nil => simp [insertSorted]
  | cons y ys ih =>
    simp only [insertSorted]
    split
    · simp [List.mem_cons]
    · simp only [List.mem_cons, ih]
      tauto

lemma mem_jsSortBy {α : Type} (le : α → α → Bool) (a : α) (l : List α) :
    a ∈ jsSortBy le l ↔ a ∈ l := by
  induction l with
  | nil => simp [jsSortBy]
  | cons x xs ih => simp [jsSortBy, mem_insertSorted, ih]

lemma dedupByKey_sublist {α β : Type} [DecidableEq β] (key : α → β) (seen : List β)
    (xs : List α) : List.Sublist (dedupByKey key seen xs) xs := by
  induction xs generalizing seen with
  | nil => simp [dedupByKey]
  | cons x xs ih =>
    simp only [dedupByKey]
    split
    · exact List.Sublist.cons x (ih seen)
    · exact List.Sublist.cons₂ x (ih _)

lemma mem_dedupByKey {α β : Type} [DecidableEq β] {key : α → β} {seen : List β}
    {xs : List α} {e : α} (he : e ∈ dedupByKey key seen xs) :
    key e ∉ seen ∧ ∃ pre post, xs = pre ++ e :: post ∧ ∀ p ∈ pre, key p ≠ key e := by
  induction xs generalizing seen with
  | nil => simp [dedupByKey] at he
  | cons x xs ih =>
    simp only [dedupByKey] at he
    by_cases hx : key x ∈ seen
    · rw [if_pos hx] at he
      obtain ⟨hnotin, pre, post, hsplit, hpre⟩ := ih he
      refine ⟨hnotin, x :: pre, post, by simp [hsplit], ?_⟩
      intro p hp
      rcases List.mem_cons.mp hp with rfl | hp
      · intro hkey
        exact hnotin (hkey ▸ hx)
      · exact hpre p hp
    · rw [if_neg hx] at he
      rcases List.mem_cons.mp he with rfl | he
      · exact ⟨hx, [], xs, rfl, by simp⟩
      · obtain ⟨hnotin, pre, post, hsplit, hpre⟩ := ih he
        have hne : key e ≠ key x := fun hkey => hnotin (by simp [hkey])
        refine ⟨fun hmem => hnotin (by simp [hmem]), x :: pre, post, by simp [hsplit], ?_⟩
        intro p hp
        rcases List.mem_cons.mp hp with rfl | hp
        · exact fun hkey => hne hkey.symm
        · exact hpre p hp

lemma dedupByKey_keys_nodup {α β : Type} [DecidableEq β] (key : α → β) (seen : List β)
    (xs : List α) :
    ((dedupByKey key seen xs).map key).Nodup ∧
      ∀ b ∈ (dedupByKey key seen xs).map key, b ∉ seen := by
  induction xs generalizing seen with
  | nil => simp [dedupByKey]
  | cons x xs ih =>
    simp only [dedupByKey]
    split
    · exact ih seen
    · rename_i hx
      obtain ⟨hnd, hdisj⟩ := ih (key x :: seen)
      refine ⟨?_, ?_⟩
      · simp only [List.map_cons, List.nodup_cons]
        exact ⟨fun hmem => hdisj _ hmem (by simp), hnd⟩
      · intro b hb
        simp only [List.map_cons, List.mem_cons] at hb
        rcases hb with rfl | hb
        · exact hx
        · exact fun hbseen => hdisj b hb (by simp [hbseen])

lemma dedupByKey_covers {α β : Type} [DecidableEq β] (key : α → β) (seen : List β)
    (xs : List α) :
    ∀ x ∈ xs, key x ∈ seen ∨ ∃ y ∈ dedupByKey key seen xs, key y = key x := by
  induction xs generalizing seen with
  | nil => simp
  | cons z xs ih =>
    intro x hx
    simp only [dedupByKey]
    by_cases hz : key z ∈ seen
    · rw [if_pos hz]
      rcases List.mem_cons.mp hx with rfl | hx
      · exact Or.inl hz
      · exact ih seen x hx
    · rw [if_neg hz]
      rcases List.mem_cons.mp hx with rfl | hx
      · exact Or.inr ⟨x, by simp, rfl⟩
      · rcases ih (key z :: seen) x hx with hmem | hfound
        · rcases List.mem_cons.mp hmem with heq | hmem
          · exact Or.inr ⟨z, by simp, heq.symm⟩
          · exact Or.inl hmem
        · obtain ⟨y, hy, hkey⟩ := hfound
          exact Or.inr ⟨y, by simp [hy], hkey⟩

lemma dedupByKey_eq_self {α β : Type} [DecidableEq β] {key : α → β} {xs : List α}
    (h : (xs.map key).Nodup) :
    ∀ seen : List β, (∀ x ∈ xs, key x ∉ seen) → dedupByKey key seen xs = xs := by
  induction xs with
  | nil =>
    intro seen _
    simp [dedupByKey]
  | cons x xs ih =>
    intro seen hd
    simp only [List.map_cons, List.nodup_cons] at h
    obtain ⟨hx, hnd⟩ := h
    simp only [dedupByKey]
    rw [if_neg (hd x (by simp))]
    congr 1
    apply ih hnd
    intro y hy
    simp only [List.mem_cons]
    push_neg
    refine ⟨?_, hd y (List.mem_cons_of_mem x hy)⟩
    intro heq
    exact hx (heq ▸ List.mem_map_of_mem key hy)

lemma dedupByKey_idem {α β : Type} [DecidableEq β] (key : α → β) (xs : List α) :
    dedupByKey key [] (dedupByKey key [] xs) = dedupByKey key [] xs := by
  apply dedupByKey_eq_self (dedupByKey_keys_nodup key [] xs).1
  simp

lemma processCandidates_skip_error {step : Event → Except String (Option ScoredEvent)}
    {e : Event} {msg : String} (h : step e = Except.error msg) (pre post : List Event) :
    FilterRoute.processCandidates step (pre ++ e :: post) =
      FilterRoute.processCandidates step (pre ++ post) := by
  induction pre with
  | nil => simp only [List.nil_append, FilterRoute.processCandidates, h]
  | cons p ps ih =>
    cases hsp : step p with
    | error msg2 =>
      simp only [List.cons_append, FilterRoute.processCandidates, hsp]
      exact ih
    | ok o =>
      cases o with
      | none =>
        simp only [List.cons_append, FilterRoute.processCandidates, hsp]
        exact ih
      | some se =>
        simp only [List.cons_append, FilterRoute.processCandidates, hsp, List.append_eq]
        rw [ih]

lemma mem_processCandidates {step : Event → Except String (Option ScoredEvent)}
    {events : List Event} {se : ScoredEvent}
    (h : se ∈ FilterRoute.processCandidates step events) :
    ∃ e ∈ events, step e = Except.ok (some se) := by
  induction events with
  | nil => simp [FilterRoute.processCandidates] at h
  | cons e rest ih =>
    cases hse : step e with
    | error msg =>
      simp only [FilterRoute.processCandidates, hse] at h
      obtain ⟨e1, he1, hok⟩ := ih h
      exact ⟨e1, List.mem_cons_of_mem e he1, hok⟩
    | ok o =>
      cases o with
      | none =>
        simp only [FilterRoute.processCandidates, hse] at h
        obtain ⟨e1, he1, hok⟩ := ih h
        exact ⟨e1, List.mem_cons_of_mem e he1, hok⟩
      | some se1 =>
        simp only [FilterRoute.processCandidates, hse] at h
        rcases List.mem_cons.mp h with rfl | h
        · exact ⟨e, List.mem_cons_self e rest, hse⟩
        · obtain ⟨e1, he1, hok⟩ := ih h
          exact ⟨e1, List.mem_cons_of_mem e he1, hok⟩

lemma scoreCandidate_fields {q : String} {loc ty : Option String} {e : Event}
    {se : ScoredEvent}
    (h : FilterRoute.scoreCandidate q loc ty e = Except.ok (some se)) :
    se.base = e ∧
    se.relevanceScore = FilterRoute.calculateRelevanceScore e q loc ty ∧
    se.studentFriendlinessScore = calculateStudentFriendlinessScore e ∧
    se.isStudentFriendly = decide ((0.6 : ℚ) < calculateStudentFriendlinessScore e) := by
  simp only [FilterRoute.scoreCandidate, Except.ok.injEq] at h
  split at h
  · simp only [Option.some.injEq] at h
    subst h
    exact ⟨rfl, rfl, rfl, rfl⟩
  · simp at h

lemma mem_scoreAndRankEvents {events : List Event} {q loc : String} {ty : Option String}
    {se : ScoredEvent} (h : se ∈ QueryRoute.scoreAndRankEvents events q loc ty) :
    ∃ e ∈ events, se = QueryRoute.scoreEvent q loc ty e := by
  simp only [QueryRoute.scoreAndRankEvents, mem_jsSortBy] at h
  obtain ⟨e, he, hse⟩ := List.mem_map.mp h
  exact ⟨e, he, hse.symm⟩

lemma categorize_eq_spec (e : Event) : categorizeEventByKeywords e = specCategorize e := by
  simp only [categorizeEventByKeywords, specCategorize, categoryRules, firstMatchingCategory,
    List.any_cons, List.any_nil, Bool.or_false, Bool.or_assoc]

lemma categorize_ne_outdoor {e : Event}
    (hb : strContains (normalizeText e) "bar" = true) :
    categorizeEventByKeywords e ≠ "outdoor" := by
  simp only [categorizeEventByKeywords, hb, Bool.true_or, Bool.or_true, if_true]
  split_ifs <;> decide

lemma categorize_nightlife {e : Event}
    (hb : strContains (normalizeText e) "bar" = true)
    (hq : matchesEarlierThanNightlife e = false) :
    categorizeEventByKeywords e = "nightlife" := by
  simp only [matchesEarlierThanNightlife, Bool.or_eq_false_iff] at hq
  obtain ⟨⟨⟨⟨⟨⟨⟨⟨⟨⟨⟨hp, hm⟩, hs⟩, hw⟩, hsem⟩, hl⟩, hmu⟩, ha⟩, hc⟩, hsp⟩, hf⟩, ho⟩ := hq
  simp only [categorizeEventByKeywords, hp, hm, hs, hw, hsem, hl, hmu, ha, hc, hsp, hf, ho,
    hb, Bool.true_or, Bool.or_true, Bool.or_self, Bool.or_false, Bool.false_or,
    Bool.false_eq_true, if_true, if_false]

/-- C1 (amended): for every event and every query/location/eventType input
where the query contains at least one whitespace token of length > 2, the
relevance score returned by calculateRelevanceScore (both call sites) is a
rational in [0.0, 1.0] after the final clamping, and the
student-friendliness score is in [0.0, 1.0] for every event.  (The original
claim also covered queries with no qualifying token; there the relevance
score is NaN, see the counterexample.) -/
theorem claim1_scores_clamped (e : Event) (q : String) (loc ty : Option String)
    (loc2 : String)
    (hq : (splitRegexWs (jsToLower q)).filter (fun word => decide (word.length > 2)) ≠ []) :
    (∃ r : ℚ, FilterRoute.calculateRelevanceScore e q loc ty = JsNum.num r ∧
      0 ≤ r ∧ r ≤ 1) ∧
    (∃ r : ℚ, QueryRoute.calculateRelevanceScore e q loc2 ty = JsNum.num r ∧
      0 ≤ r ∧ r ≤ 1) ∧
    0 ≤ calculateStudentFriendlinessScore e ∧ calculateStudentFriendlinessScore e ≤ 1 := by
  have hn : ((splitRegexWs (jsToLower q)).filter (fun word => decide (word.length > 2))).length ≠ 0 :=
    fun hlen => hq (List.length_eq_zero.mp hlen)
  exact ⟨relevance_range_filterRoute e q loc ty hn,
    relevance_range_queryRoute e q loc2 ty hn, studentFriendliness_range e⟩

/-- C1 counterexample: for the query "hi" (its only token has length 2, so
no token qualifies) the relevance score is NaN, not a rational in [0,1]:
the original claim's "including the case where the query contains no token
of length > 2" fails. -/
theorem claim1_counterexample :
    ¬ ∃ r : ℚ, FilterRoute.calculateRelevanceScore bareEvent "hi" none none = JsNum.num r ∧
        0 ≤ r ∧ r ≤ 1 := by
  intro hex
  obtain ⟨r, hr, _, _⟩ := hex
  rw [relevance_nan_filterRoute bareEvent "hi" none none (by decide)] at hr
  exact JsNum.noConfusion hr

/-- C1 witness: concrete instance of the amended claim at the query
"party". -/
theorem claim1_witness :
    (∃ r : ℚ, FilterRoute.calculateRelevanceScore wEvent "party" none none = JsNum.num r ∧
      0 ≤ r ∧ r ≤ 1) ∧
    (∃ r : ℚ, QueryRoute.calculateRelevanceScore wEvent "party" "barcelona" none = JsNum.num r ∧
      0 ≤ r ∧ r ≤ 1) ∧
    0 ≤ calculateStudentFriendlinessScore wEvent ∧
      calculateStudentFriendlinessScore wEvent ≤ 1 :=
  claim1_scores_clamped wEvent "party" none none "barcelona" (by decide)

/-- C2: the division `matchingWords.length / queryWords.length` is NOT
guarded: for every query whose whitespace tokens all have length ≤ 2 the
code evaluates JS `0 / 0` and both relevance functions return NaN, instead
of skipping the token-overlap term as the spec prescribes (the spec itself
flags the unguarded source in §9). -/
theorem claim2_unguarded_division (e : Event) (q : String) (loc ty : Option String)
    (loc2 : String)
    (hq : (splitRegexWs (jsToLower q)).filter (fun word => decide (word.length > 2)) = []) :
    FilterRoute.calculateRelevanceScore e q loc ty = JsNum.nan ∧
    QueryRoute.calculateRelevanceScore e q loc2 ty = JsNum.nan :=
  ⟨relevance_nan_filterRoute e q loc ty hq, relevance_nan_queryRoute e q loc2 ty hq⟩

/-- C2 witness: the concrete failing query "go to it" (every token has
length ≤ 2) produces NaN in both scoring call sites. -/
theorem claim2_witness :
    FilterRoute.calculateRelevanceScore bareEvent "go to it" none none = JsNum.nan ∧
    QueryRoute.calculateRelevanceScore bareEvent "go to it" "x" none = JsNum.nan :=
  claim2_unguarded_division bareEvent "go to it" none none "x" (by decide)

/-- C4 (amended): categorizeEventByKeywords evaluates its fixed keyword
rules in the documented order and returns the category of the first rule
whose keyword group matches the lower-cased title+description text,
returning "general" when no rule matches (stated as equality with the
spec's first-match rule-table evaluation `specCategorize`); for every event
whose text contains both "hiking" and "bar" the result is never "outdoor",
and it is "nightlife" whenever additionally no keyword of an earlier rule
(rules 1-4: social, academic, cultural, sports) occurs in the text.  (The
original claim asserted "nightlife" without that last proviso; see the
counterexample.) -/
theorem claim4_categorizer_order (e0 e1 e2 : Event)
    (hh1 : strContains (normalizeText e1) "hiking" = true)
    (hb1 : strContains (normalizeText e1) "bar" = true)
    (hh2 : strContains (normalizeText e2) "hiking" = true)
    (hb2 : strContains (normalizeText e2) "bar" = true)
    (hq2 : matchesEarlierThanNightlife e2 = false) :
    categorizeEventByKeywords e0 = specCategorize e0 ∧
    categorizeEventByKeywords e1 ≠ "outdoor" ∧
    categorizeEventByKeywords e2 = "nightlife" :=
  ⟨categorize_eq_spec e0, categorize_ne_outdoor hb1, categorize_nightlife hb2 hq2⟩

/-- C4 counterexample: the event titled "party hiking bar" contains both
"hiking" and "bar" yet categorizes as "social" (rule 1 fires first), not
"nightlife" as the original claim asserts. -/
theorem claim4_counterexample :
    strContains (normalizeText hikingBarPartyEvent) "hiking" = true ∧
    strContains (normalizeText hikingBarPartyEvent) "bar" = true ∧
    categorizeEventByKeywords hikingBarPartyEvent = "social" ∧
    categorizeEventByKeywords hikingBarPartyEvent ≠ "nightlife" :=
  ⟨by decide, by decide, by decide, by decide⟩

/-- C4 witness: concrete instance of the amended claim at the event titled
"hiking bar" (and the bare event for the rule-table equality). -/
theorem claim4_witness :
    categorizeEventByKeywords bareEvent = specCategorize bareEvent ∧
    categorizeEventByKeywords hikingBarEvent ≠ "outdoor" ∧
    categorizeEventByKeywords hikingBarEvent = "nightlife" :=
  claim4_categorizer_order bareEvent hikingBarEvent hikingBarEvent
    (by decide) (by decide) (by decide) (by decide) (by decide)

/-- C5: removeDuplicateEvents is order-preserving with
first-occurrence-wins: the kept events form a sublist of the input (their
relative order is the input order), no two kept events share a fingerprint
(so of any two events with identical fingerprints — regardless of platform
or id — at most the one occurring first is kept), every kept event is the
first occurrence of its fingerprint, and every input event's fingerprint is
represented by some kept event. -/
theorem claim5_dedup_first_occurrence (xs : List Event) (e x : Event)
    (he : e ∈ removeDuplicateEvents xs) (hx : x ∈ xs) :
    List.Sublist (removeDuplicateEvents xs) xs ∧
    ((removeDuplicateEvents xs).map dedupKey).Nodup ∧
    (∃ pre post, xs = pre ++ e :: post ∧ ∀ p ∈ pre, dedupKey p ≠ dedupKey e) ∧
    ∃ y ∈ removeDuplicateEvents xs, dedupKey y = dedupKey x := by
  simp only [removeDuplicateEvents] at he ⊢
  refine ⟨dedupByKey_sublist _ _ _, (dedupByKey_keys_nodup _ _ _).1,
    (mem_dedupByKey he).2, ?_⟩
  rcases dedupByKey_covers dedupKey [] xs x hx with hmem | hfound
  · simp at hmem
  · exact hfound

/-- C5 witness: two concrete events with identical normalized
title+location fingerprints but different platforms and ids; only the first
is kept. -/
theorem claim5_witness :
    List.Sublist (removeDuplicateEvents [bcnEvent, bcnEventReddit])
      [bcnEvent, bcnEventReddit] ∧
    ((removeDuplicateEvents [bcnEvent, bcnEventReddit]).map dedupKey).Nodup ∧
    (∃ pre post, [bcnEvent, bcnEventReddit] = pre ++ bcnEvent :: post ∧
      ∀ p ∈ pre, dedupKey p ≠ dedupKey bcnEvent) ∧
    ∃ y ∈ removeDuplicateEvents [bcnEvent, bcnEventReddit],
      dedupKey y = dedupKey bcnEventReddit :=
  claim5_dedup_first_occurrence [bcnEvent, bcnEventReddit] bcnEvent bcnEventReddit
    (by decide) (by decide)

/-- C6: both removeDuplicateEvents implementations (the query route's and
the basic-scrape route's) are idempotent and never lengthen their input. -/
theorem claim6_dedup_idempotent (xs : List Event) :
    removeDuplicateEvents (removeDuplicateEvents xs) = removeDuplicateEvents xs ∧
    (removeDuplicateEvents xs).length ≤ xs.length ∧
    removeDuplicateEventsScrape (removeDuplicateEventsScrape xs) =
      removeDuplicateEventsScrape xs ∧
    (removeDuplicateEventsScrape xs).length ≤ xs.length := by
  simp only [removeDuplicateEvents, removeDuplicateEventsScrape]
  exact ⟨dedupByKey_idem _ _, (dedupByKey_sublist _ _ _).length_le,
    dedupByKey_idem _ _, (dedupByKey_sublist _ _ _).length_le⟩

/-- C9: an `Except.error` (a thrown scoring exception) on one candidate
does not abort the batch — that candidate is skipped and the remaining
candidates produce exactly what they would have produced without it; and
filterAndRankEvents on an empty candidate list returns the empty list. -/
theorem claim9_error_isolation (step : Event → Except String (Option ScoredEvent))
    (e : Event) (msg : String) (pre post : List Event) (q : String)
    (loc ty : Option String) (h : step e = Except.error msg) :
    FilterRoute.processCandidates step (pre ++ e :: post) =
      FilterRoute.processCandidates step (pre ++ post) ∧
    FilterRoute.filterAndRankEvents [] q loc ty = [] :=
  ⟨processCandidates_skip_error h pre post, rfl⟩

/-- C9 witness: a concrete always-throwing step on a three-candidate batch;
the failing middle candidate is skipped, the batch is not aborted. -/
theorem claim9_witness :
    FilterRoute.processCandidates alwaysFailStep ([wEvent] ++ bareEvent :: [wEvent]) =
      FilterRoute.processCandidates alwaysFailStep ([wEvent] ++ [wEvent]) ∧
    FilterRoute.filterAndRankEvents [] "party" none none = [] :=
  claim9_error_isolation alwaysFailStep bareEvent "scoring failed" [wEvent] [wEvent]
    "party" none none rfl

/-- C10: in both scoring call sites the +0.2 event-type bonus requires the
raw candidate to already carry a truthy eventType field: a candidate with
no eventType field scores identically with and without the hint, even when
the hint is exactly the category the pipeline would assign to it. -/
theorem claim10_no_bonus_without_raw_type (e : Event) (q : String)
    (loc : Option String) (loc2 : String) (hint : String)
    (h : e.eventType = none) :
    FilterRoute.calculateRelevanceScore e q loc (some hint) =
      FilterRoute.calculateRelevanceScore e q loc none ∧
    QueryRoute.calculateRelevanceScore e q loc2 (some hint) =
      QueryRoute.calculateRelevanceScore e q loc2 none ∧
    FilterRoute.calculateRelevanceScore e q loc (some (categorizeEventByKeywords e)) =
      FilterRoute.calculateRelevanceScore e q loc none := by
  refine ⟨?_, ?_, ?_⟩ <;>
    simp only [FilterRoute.calculateRelevanceScore, QueryRoute.calculateRelevanceScore, h,
      isTruthy, Bool.and_false, Bool.false_and, JsNum.condAdd_false]

/-- C10 witness: concrete instance at an event with no eventType field and
the hint "social" (which is also what the categorizer would assign). -/
theorem claim10_witness :
    FilterRoute.calculateRelevanceScore bareEvent "party" none (some "social") =
      FilterRoute.calculateRelevanceScore bareEvent "party" none none ∧
    QueryRoute.calculateRelevanceScore bareEvent "party" "x" (some "social") =
      QueryRoute.calculateRelevanceScore bareEvent "party" "x" none ∧
    FilterRoute.calculateRelevanceScore bareEvent "party" none
        (some (categorizeEventByKeywords bareEvent)) =
      FilterRoute.calculateRelevanceScore bareEvent "party" none none :=
  claim10_no_bonus_without_raw_type bareEvent "party" none "x" "social" rfl

lemma JsNum.add_num (a b : ℚ) : JsNum.add (JsNum.num a) (JsNum.num b) = JsNum.num (a + b) := rfl

lemma JsNum.mul_num (a b : ℚ) : JsNum.mul (JsNum.num a) (JsNum.num b) = JsNum.num (a * b) := rfl

lemma JsNum.min_num (a b : ℚ) :
    JsNum.min (JsNum.num a) (JsNum.num b) = JsNum.num (if a ≤ b then a else b) := rfl

lemma jsDiv_of_ne {a b : Nat} (h : b ≠ 0) : jsDiv a b = JsNum.num ((a : ℚ) / (b : ℚ)) :=
  if_neg h

lemma wEvent_rel_filter :
    FilterRoute.calculateRelevanceScore wEvent "party" none none = JsNum.num (2/5) := by
  have hq : ((splitRegexWs (jsToLower "party")).filter
      (fun word => decide (word.length > 2))).length = 1 := by decide
  have hm : (((splitRegexWs (jsToLower "party")).filter
      (fun word => decide (word.length > 2))).filter
      (fun word => strContains (normalizeText wEvent) word)).length = 1 := by decide
  simp only [FilterRoute.calculateRelevanceScore, hq, hm, isTruthy,
    show wEvent.location = none from rfl, show wEvent.eventType = none from rfl,
    show wEvent.description = none from rfl, show wEvent.imageUrl = none from rfl,
    show wEvent.dateTime = none from rfl,
    Bool.false_and, Bool.and_false, JsNum.condAdd_false]
  rw [jsDiv_of_ne Nat.one_ne_zero, JsNum.mul_num, JsNum.add_num, JsNum.min_num]
  simp only [JsNum.num.injEq, Nat.cast_one]
  split_ifs with hX
  · norm_num
  · norm_num at hX

lemma wEvent_rel_query :
    QueryRoute.calculateRelevanceScore wEvent "party" "barcelona" none = JsNum.num (2/5) := by
  have hq : ((splitRegexWs (jsToLower "party")).filter
      (fun word => decide (word.length > 2))).length = 1 := by decide
  have hm : (((splitRegexWs (jsToLower "party")).filter
      (fun word => decide (word.length > 2))).filter
      (fun word => strContains (normalizeText wEvent) word)).length = 1 := by decide
  simp only [QueryRoute.calculateRelevanceScore, hq, hm, isTruthy,
    show wEvent.location = none from rfl, show wEvent.eventType = none from rfl,
    show wEvent.description = none from rfl, show wEvent.imageUrl = none from rfl,
    show wEvent.dateTime = none from rfl,
    Bool.false_and, Bool.and_false, JsNum.condAdd_false]
  rw [jsDiv_of_ne Nat.one_ne_zero, JsNum.mul_num, JsNum.add_num, JsNum.min_num]
  simp only [JsNum.num.injEq, Nat.cast_one]
  split_ifs with hX
  · norm_num
  · norm_num at hX

lemma wEvent_sfs : calculateStudentFriendlinessScore wEvent = 1/10 := by
  simp +decide [calculateStudentFriendlinessScore, qCondAdd, jsMinQ]
  split_ifs with hX
  · norm_num
  · norm_num at hX

lemma bcn_rel_query :
    QueryRoute.calculateRelevanceScore bcnEvent "party" "barcelona" none = JsNum.num (7/10) := by
  have hq : ((splitRegexWs (jsToLower "party")).filter
      (fun word => decide (word.length > 2))).length = 1 := by decide
  have hm : (((splitRegexWs (jsToLower "party")).filter
      (fun word => decide (word.length > 2))).filter
      (fun word => strContains (normalizeText bcnEvent) word)).length = 1 := by decide
  have hloc : (isTruthy bcnEvent.location &&
      strContains (jsToLower (bcnEvent.location.getD "")) (jsToLower "barcelona")) = true := by
    decide
  simp only [QueryRoute.calculateRelevanceScore, hq, hm, hloc,
    show isTruthy none = false from rfl,
    show bcnEvent.eventType = none from rfl, show bcnEvent.description = none from rfl,
    show bcnEvent.imageUrl = none from rfl, show bcnEvent.dateTime = none from rfl,
    Bool.false_and, Bool.and_false, JsNum.condAdd_false,
    show ∀ s : JsNum, ∀ k : ℚ, JsNum.condAdd s true k = s.add (JsNum.num k) from
      fun s k => rfl]
  rw [jsDiv_of_ne Nat.one_ne_zero, JsNum.mul_num, JsNum.add_num, JsNum.add_num, JsNum.min_num]
  simp only [JsNum.num.injEq, Nat.cast_one]
  split_ifs with hX
  · norm_num
  · norm_num at hX

lemma bcn_sfs : calculateStudentFriendlinessScore bcnEvent = 1/10 := by
  simp +decide [calculateStudentFriendlinessScore, qCondAdd, jsMinQ]
  split_ifs with hX
  · norm_num
  · norm_num at hX

lemma take_ne_nil2 {α : Type} {l : List α} {n : Nat} (hl : l ≠ []) (hn : 0 < n) :
    l.take n ≠ [] := by
  cases l with
  | nil => exact absurd rfl hl
  | cons a l =>
    cases n with
    | zero => exact absurd hn (by simp)
    | succ n => simp [List.take]

/-- C3: every ScoredEvent produced by the scoring stages satisfies
`isStudentFriendly = (studentFriendlinessScore > 0.6)`, in both the filter
path (filterAndRankEvents) and the rank path (scoreAndRankEvents): the
boolean is always the threshold function of the score carried by the same
object. -/
theorem claim3_friendly_flag (events1 events2 : List Event) (q1 q2 : String)
    (loc1 ty1 : Option String) (loc2 : String) (ty2 : Option String)
    (se1 se2 : ScoredEvent)
    (h1 : se1 ∈ FilterRoute.filterAndRankEvents events1 q1 loc1 ty1)
    (h2 : se2 ∈ QueryRoute.scoreAndRankEvents events2 q2 loc2 ty2) :
    se1.isStudentFriendly = decide ((0.6 : ℚ) < se1.studentFriendlinessScore) ∧
    se2.isStudentFriendly = decide ((0.6 : ℚ) < se2.studentFriendlinessScore) := by
  constructor
  · simp only [FilterRoute.filterAndRankEvents, mem_jsSortBy] at h1
    obtain ⟨e, he, hok⟩ := mem_processCandidates h1
    obtain ⟨hbase, hrel, hsfs, hfriendly⟩ := scoreCandidate_fields hok
    rw [hfriendly, hsfs]
  · obtain ⟨e, he, hse⟩ := mem_scoreAndRankEvents h2
    subst hse
    simp only [QueryRoute.scoreEvent]

/-- C3 witness: concrete instance; the event titled "party" is kept by both
paths and its flag is `false = (1/10 > 0.6)`. -/
theorem claim3_witness :
    (false = decide ((0.6 : ℚ) < (1/10 : ℚ))) ∧
    (false = decide ((0.6 : ℚ) < (1/10 : ℚ))) :=
  claim3_friendly_flag [wEvent] [wEvent] "party" "party" none none "barcelona" none
    (ScoredEvent.mk wEvent (JsNum.num (2/5)) false (1/10) "social" ["party"])
    (ScoredEvent.mk wEvent (JsNum.num (2/5)) false (1/10) "social" ["party"])
    (by
      have hstep : FilterRoute.scoreCandidate "party" none none wEvent =
          Except.ok (some (ScoredEvent.mk wEvent (JsNum.num (2/5)) false (1/10)
            "social" ["party"])) := by
        simp only [FilterRoute.scoreCandidate, wEvent_rel_filter, wEvent_sfs]
        rw [show JsNum.gtNum (JsNum.num (2/5)) 0.3 = true from by
          simp only [JsNum.gtNum, decide_eq_true_eq]; norm_num]
        simp only [show (decide ((0.6 : ℚ) < 1/10)) = false from decide_eq_false (by norm_num),
          show isTruthy none = false from rfl,
          show categorizeEventByKeywords wEvent = "social" from by decide,
          show extractKeywordsFromEvent wEvent = ["party"] from by decide]
        simp
      simp only [FilterRoute.filterAndRankEvents]
      rw [mem_jsSortBy]
      simp only [FilterRoute.processCandidates, hstep]
      simp)
    (by
      have hscore : QueryRoute.scoreEvent "party" "barcelona" none wEvent =
          ScoredEvent.mk wEvent (JsNum.num (2/5)) false (1/10) "social" ["party"] := by
        simp only [QueryRoute.scoreEvent, wEvent_rel_query, wEvent_sfs,
          show (decide ((0.6 : ℚ) < 1/10)) = false from decide_eq_false (by norm_num),
          show isTruthy none = false from rfl,
          show categorizeEventByKeywords wEvent = "social" from by decide,
          show extractKeywordsFromEvent wEvent = ["party"] from by decide]
        simp
      simp only [QueryRoute.scoreAndRankEvents]
      rw [mem_jsSortBy]
      simp only [List.map_cons, List.map_nil, hscore]
      simp)

/-- C7: the flatten step takes events only from envelopes with
`success = true`; with one failed and one successful envelope (in either
source file's formulation of the flatten) the flattened list is exactly the
successful envelope's event list, and every ranked ScoredEvent produced
from it originates from (has as its raw fields) an event of the successful
envelope. -/
theorem claim7_flatten_success (r1 r2 : ScrapingResult) (q loc : String)
    (ty : Option String) (se : ScoredEvent)
    (h1 : r1.success = false) (h2 : r2.success = true)
    (hse : se ∈ QueryRoute.scoreAndRankEvents
      (removeDuplicateEvents (flattenSuccessfulEvents [r1, r2])) q loc ty) :
    flattenSuccessfulEvents [r1, r2] = r2.events ∧
    flattenSuccessfulEventsFiltered [r1, r2] = r2.events ∧
    se.base ∈ r2.events := by
  have hflat : flattenSuccessfulEvents [r1, r2] = r2.events := by
    simp [flattenSuccessfulEvents, h1, h2]
  have hflatF : flattenSuccessfulEventsFiltered [r1, r2] = r2.events := by
    simp [flattenSuccessfulEventsFiltered, h1, h2]
  refine ⟨hflat, hflatF, ?_⟩
  obtain ⟨e, he, hse2⟩ := mem_scoreAndRankEvents hse
  simp only [removeDuplicateEvents] at he
  have hmem : e ∈ flattenSuccessfulEvents [r1, r2] :=
    (dedupByKey_sublist dedupKey [] _).subset he
  rw [hflat] at hmem
  rw [hse2]
  simpa only [QueryRoute.scoreEvent] using hmem

/-- C7 witness: a failed instagram envelope and a successful reddit
envelope; the ranked output's single event originates from the reddit
envelope. -/
theorem claim7_witness :
    flattenSuccessfulEvents
        [ScrapingResult.mk "instagram" false [] (some "blocked"),
         ScrapingResult.mk "reddit" true [bcnEvent] none] =
      (ScrapingResult.mk "reddit" true [bcnEvent] none).events ∧
    flattenSuccessfulEventsFiltered
        [ScrapingResult.mk "instagram" false [] (some "blocked"),
         ScrapingResult.mk "reddit" true [bcnEvent] none] =
      (ScrapingResult.mk "reddit" true [bcnEvent] none).events ∧
    (ScoredEvent.mk bcnEvent (JsNum.num (7/10)) false (1/10) "social" ["party"]).base ∈
      (ScrapingResult.mk "reddit" true [bcnEvent] none).events :=
  claim7_flatten_success
    (ScrapingResult.mk "instagram" false [] (some "blocked"))
    (ScrapingResult.mk "reddit" true [bcnEvent] none)
    "party" "barcelona" none
    (ScoredEvent.mk bcnEvent (JsNum.num (7/10)) false (1/10) "social" ["party"])
    rfl rfl
    (by
      have hscore : QueryRoute.scoreEvent "party" "barcelona" none bcnEvent =
          ScoredEvent.mk bcnEvent (JsNum.num (7/10)) false (1/10) "social" ["party"] := by
        simp only [QueryRoute.scoreEvent, bcn_rel_query, bcn_sfs,
          show (decide ((0.6 : ℚ) < 1/10)) = false from decide_eq_false (by norm_num),
          show isTruthy none = false from rfl,
          show categorizeEventByKeywords bcnEvent = "social" from by decide,
          show extractKeywordsFromEvent bcnEvent = ["party"] from by decide]
        simp
      rw [show removeDuplicateEvents (flattenSuccessfulEvents
          [ScrapingResult.mk "instagram" false [] (some "blocked"),
           ScrapingResult.mk "reddit" true [bcnEvent] none]) = [bcnEvent] from by decide]
      simp only [QueryRoute.scoreAndRankEvents]
      rw [mem_jsSortBy]
      simp only [List.map_cons, List.map_nil, hscore]
      simp)

/-- C8: when the student-friendliness-only view (score > 0.4) of a
non-empty scored list is empty, the pipeline falls back to the full scored
list truncated to maxResults; and for positive maxResults a non-empty
scored list is never zeroed out by this secondary filter. -/
theorem claim8_fallback (scoredEvents : List ScoredEvent) (maxResults : Nat)
    (hne : scoredEvents ≠ []) (hm : 0 < maxResults) :
    (scoredEvents.filter
        (fun event => decide ((0.4 : ℚ) < event.studentFriendlinessScore)) = [] →
      applyStudentFriendlyFallback scoredEvents maxResults =
        scoredEvents.take maxResults) ∧
    applyStudentFriendlyFallback scoredEvents maxResults ≠ [] := by
  constructor
  · intro hfil
    simp only [applyStudentFriendlyFallback, hfil]
    simp
  · simp only [applyStudentFriendlyFallback]
    by_cases hc : 0 < (scoredEvents.filter
        (fun event => decide ((0.4 : ℚ) < event.studentFriendlinessScore))).length
    · rw [if_pos hc]
      exact take_ne_nil2 (List.length_pos.mp hc) hm
    · rw [if_neg hc]
      exact take_ne_nil2 hne hm

/-- C8 witness: a single scored event with score 1/5 (≤ 0.4): the
student-friendly view is empty, the fallback returns the truncated full
list, and the output is non-empty. -/
theorem claim8_witness :
    (([ScoredEvent.mk bareEvent (JsNum.num 0) false (1/5) "general" []].filter
        (fun event => decide ((0.4 : ℚ) < event.studentFriendlinessScore)) = []) →
      applyStudentFriendlyFallback
          [ScoredEvent.mk bareEvent (JsNum.num 0) false (1/5) "general" []] 5 =
        [ScoredEvent.mk bareEvent (JsNum.num 0) false (1/5) "general" []].take 5) ∧
    applyStudentFriendlyFallback
        [ScoredEvent.mk bareEvent (JsNum.num 0) false (1/5) "general" []] 5 ≠ [] :=
  claim8_fallback [ScoredEvent.mk bareEvent (JsNum.num 0) false (1/5) "general" []] 5
    (by decide) (by decide)
